import Mathlib

/-!
Shallow embedding of the rosm_geo library (src/coord.rs, src/rect.rs,
src/mercator.rs).  Finite f64 values are modelled by rationals; all the
operations under study perform only comparisons, absolute values and
exact dyadic arithmetic at the inputs of interest, so the rational model
is exact there.  IEEE special values (NaN, infinities) appear only at the
validation boundary, which is modelled by the type F64 below.
Fallible constructors return Except; the source's .unwrap() calls are
modelled by Option-propagation (a panic becomes none).
-/

/-- Model of a Rust f64 for coordinate validation: either a finite value
(modelled exactly by a rational) or one of the IEEE special values. -/
inductive F64 where
  | finite (q : ℚ)
  | nan
  | inf
  | negInf
deriving DecidableEq

/-- IEEE-754 comparison a <= b on the F64 model: every comparison involving
NaN is false; -inf is below everything else; +inf is above everything else. -/
def F64.le : F64 → F64 → Bool
  | .nan, _ => false
  | _, .nan => false
  | .negInf, _ => true
  | _, .negInf => false
  | .finite a, .finite b => decide (a ≤ b)
  | .finite _, .inf => true
  | .inf, .inf => true
  | .inf, .finite _ => false

/-- Projection of a finite F64 to its rational value (0 on the special
values; from_degrees only applies it under a guard that forces finiteness). -/
def F64.toRat : F64 → ℚ
  | .finite q => q
  | _ => 0

/-- WGS 84 longitude/latitude pair (struct GeoCoord, src/coord.rs). -/
structure GeoCoord where
  lon : ℚ
  lat : ℚ
deriving DecidableEq

/-- Error type InvalidGeoCoord (src/coord.rs). -/
structure InvalidGeoCoord where
deriving DecidableEq

/-- The range invariant established by GeoCoord::from_degrees. -/
def GeoCoord.valid (c : GeoCoord) : Prop :=
  -180 ≤ c.lon ∧ c.lon ≤ 180 ∧ -90 ≤ c.lat ∧ c.lat ≤ 90

instance (c : GeoCoord) : Decidable c.valid := by
  unfold GeoCoord.valid; infer_instance

/-- GeoCoord::from_degrees (src/coord.rs lines 12-18): the Rust test
`(-180.0..=180.0).contains(&lon) && (-90.0..=90.0).contains(&lat)` is the
conjunction of four IEEE comparisons, modelled by F64.le. -/
def GeoCoord.from_degrees (lon lat : F64) : Except InvalidGeoCoord GeoCoord :=
  if (F64.le (.finite (-180)) lon && F64.le lon (.finite 180)) &&
     (F64.le (.finite (-90)) lat && F64.le lat (.finite 90)) then
    .ok ⟨lon.toRat, lat.toRat⟩
  else
    .error ⟨⟩

/-- impl PartialEq for GeoCoord (src/coord.rs lines 37-47): antimeridian
identification first, then pole identification, then literal equality. -/
def GeoCoord.eq (a b : GeoCoord) : Bool :=
  if |a.lon| = 180 ∧ |b.lon| = 180 then
    true
  else if a.lat = b.lat ∧ |a.lat| = 90 then
    true
  else
    decide (a.lon = b.lon ∧ a.lat = b.lat)

/-- Axis-aligned lon/lat rectangle (struct GeoRect, src/rect.rs). -/
structure GeoRect where
  top_left : GeoCoord
  bottom_right : GeoCoord
deriving DecidableEq

/-- The invariant established by GeoRect::new (fails iff tl.lat < br.lat). -/
def GeoRect.valid (r : GeoRect) : Prop :=
  r.bottom_right.lat ≤ r.top_left.lat

instance (r : GeoRect) : Decidable r.valid := by
  unfold GeoRect.valid; infer_instance

/-- GeoRect::crosses_dateline (src/rect.rs): tl.lon > br.lon. -/
def GeoRect.crosses_dateline (r : GeoRect) : Bool :=
  decide (r.bottom_right.lon < r.top_left.lon)

/-- GeoRect::contains_lon (src/rect.rs lines 50-56). -/
def GeoRect.contains_lon (r : GeoRect) (lon : ℚ) : Bool :=
  if r.crosses_dateline = false then
    decide (r.top_left.lon ≤ lon) && decide (lon ≤ r.bottom_right.lon)
  else
    decide (r.top_left.lon ≤ lon) || decide (lon ≤ r.bottom_right.lon)

/-- GeoRect::contains_coord (src/rect.rs lines 58-64). -/
def GeoRect.contains_coord (r : GeoRect) (c : GeoCoord) : Bool :=
  if c.lat ≤ r.top_left.lat ∧ r.bottom_right.lat ≤ c.lat then
    r.contains_lon c.lon
  else
    false

/-- GeoRect::contains_rect (src/rect.rs lines 66-74); the early return in
the crossing special case becomes the inner if. -/
def GeoRect.contains_rect (r other : GeoRect) : Bool :=
  if r.crosses_dateline = false ∧ other.crosses_dateline = true then
    if -180 < r.top_left.lon ∨ r.bottom_right.lon < 180 then
      false
    else
      r.contains_coord other.top_left && r.contains_coord other.bottom_right
  else
    r.contains_coord other.top_left && r.contains_coord other.bottom_right

/-- GeoRect::intersects (src/rect.rs lines 76-87). -/
def GeoRect.intersects (r other : GeoRect) : Bool :=
  if other.top_left.lat < r.bottom_right.lat ∨ r.top_left.lat < other.bottom_right.lat then
    false
  else if (|r.top_left.lat| = 90 ∧ r.top_left.lat = other.top_left.lat) ∨
          (|r.bottom_right.lat| = 90 ∧ r.bottom_right.lat = other.bottom_right.lat) then
    true
  else
    r.contains_lon other.top_left.lon || r.contains_lon other.bottom_right.lon

/-- GeoRect::center (src/rect.rs lines 31-44); the final
`GeoCoord::from_degrees(lon, lat).unwrap()` is modelled by Except.toOption,
so a panic of the source becomes none. -/
def GeoRect.center (r : GeoRect) : Option GeoCoord :=
  let lat := (r.top_left.lat + r.bottom_right.lat) / 2
  let lon :=
    if r.crosses_dateline then
      let a := 180 - r.top_left.lon
      let b := |(-180) - r.bottom_right.lon|
      (a + b) / 2 + r.top_left.lon
    else
      (r.top_left.lon + r.bottom_right.lon) / 2
  (GeoCoord.from_degrees (.finite lon) (.finite lat)).toOption

/-- XYZ tile address (struct TileId, src/mercator.rs).  The u32 fields are
modelled by naturals; the validity predicate below records the invariant
checked by TileId::new together with z < 32, without which the source's
2u32.pow(z) itself overflows. -/
structure TileId where
  x : ℕ
  y : ℕ
  z : ℕ
deriving DecidableEq

/-- The invariant established by TileId::new (src/mercator.rs lines 16-24):
x < 2^z and y < 2^z, with z small enough for 2u32.pow(z) to be defined. -/
def TileId.valid (t : TileId) : Prop :=
  t.x < 2 ^ t.z ∧ t.y < 2 ^ t.z ∧ t.z < 32

instance (t : TileId) : Decidable t.valid := by
  unfold TileId.valid; infer_instance

/-- TileId::flip_y (src/mercator.rs lines 38-40): y becomes 2^z - 1 - y. -/
def TileId.flip_y (t : TileId) : TileId :=
  ⟨t.x, 2 ^ t.z - 1 - t.y, t.z⟩

/-- TMS tile address: a TileId under the flipped-Y convention
(struct TmsTileId, src/mercator.rs). -/
structure TmsTileId where
  toTileId : TileId
deriving DecidableEq

/-- impl From TmsTileId for TileId (src/mercator.rs lines 64-70). -/
def TileId.ofTms (t : TmsTileId) : TileId :=
  t.toTileId.flip_y

/-- impl From TileId for TmsTileId (src/mercator.rs lines 72-78). -/
def TmsTileId.ofTileId (t : TileId) : TmsTileId :=
  ⟨t.flip_y⟩

/-- struct TileGrid (src/mercator.rs): zoom level and tile extent. -/
structure TileGrid where
  z : ℕ
  tile_extent : ℕ

/-- The x tile index computed by TileGrid::tile_id (src/mercator.rs
lines 108-122): floor((lon + 180) / 360 * 2^z).  At the inputs studied the
f64 arithmetic is exact, so the rational model coincides with the source. -/
def TileGrid.tile_id_x (g : TileGrid) (lon : ℚ) : ℤ :=
  ⌊(lon + 180) / 360 * 2 ^ g.z⌋

/-- Result of the bottom-latitude computation in TileGrid::tile_bbox:
either the hard sentinel floor -85.05113, or the inverse-Mercator value
atan(sinh(pi * a)) * 180 / pi whose rational argument a is recorded. -/
inductive BottomLat where
  | sentinel
  | invMercator (a : ℚ)
deriving DecidableEq

/-- The bottom-latitude branch of TileGrid::tile_bbox (src/mercator.rs
lines 169-187): the sentinel is chosen exactly when tile_id.y() == 2^z,
otherwise the inverse Mercator formula is applied to 1 - 2*(y+1)/2^z. -/
def TileGrid.tile_bbox_bottom (g : TileGrid) (t : TileId) : BottomLat :=
  if t.y = 2 ^ g.z then
    .sentinel
  else
    .invMercator (1 - 2 * ((t.y : ℚ) + 1) / 2 ^ g.z)

/-- A WGS84 coordinate encoded into two 32-bit integers
(struct CompactGeoCoord, src/coord.rs). -/
structure CompactGeoCoord where
  lon : ℤ
  lat : ℤ
deriving DecidableEq

/-- The i32 range invariant of the CompactGeoCoord fields. -/
def CompactGeoCoord.valid (c : CompactGeoCoord) : Prop :=
  -(2 ^ 31) ≤ c.lon ∧ c.lon < 2 ^ 31 ∧ -(2 ^ 31) ≤ c.lat ∧ c.lat < 2 ^ 31

instance (c : CompactGeoCoord) : Decidable c.valid := by
  unfold CompactGeoCoord.valid; infer_instance

/-- The 32 low bits of the two's-complement representation of an integer:
the bits of an i32 sign-extended to i64 that the interleave loop reads. -/
def bits32 (n : ℤ) : ℕ :=
  (n % 2 ^ 32).toNat

/-- fn interleave (src/coord.rs lines 74-81): 32 iterations of
morton |= (x & 1 << i) << i | (y & 1 << i) << (i + 1), on the 64-bit
patterns; bit arithmetic on non-negative patterns is carried out on ℕ. -/
def interleave (x y : ℕ) : ℕ :=
  (List.range 32).foldl
    (fun morton i => morton ||| (((x &&& 1 <<< i) <<< i) ||| ((y &&& 1 <<< i) <<< (i + 1))))
    0

/-- CompactGeoCoord::morton_code (src/coord.rs lines 84-87): interleave of
the sign-extended lon and lat; the loop only reads bits 0..31, i.e. the
i32 two's-complement patterns. -/
def CompactGeoCoord.morton_code (c : CompactGeoCoord) : ℕ :=
  interleave (bits32 c.lon) (bits32 c.lat)

/-! ### Helper lemmas -/

/-- On finite inputs, from_degrees is the plain rational range check. -/
theorem from_degrees_finite (a b : ℚ) :
    GeoCoord.from_degrees (.finite a) (.finite b) =
      if -180 ≤ a ∧ a ≤ 180 ∧ -90 ≤ b ∧ b ≤ 90 then .ok ⟨a, b⟩ else .error ⟨⟩ := by
  unfold GeoCoord.from_degrees
  simp only [F64.le, F64.toRat, Bool.and_eq_true, decide_eq_true_eq]
  by_cases h : -180 ≤ a ∧ a ≤ 180 ∧ -90 ≤ b ∧ b ≤ 90
  · rw [if_pos ⟨⟨h.1, h.2.1⟩, h.2.2.1, h.2.2.2⟩, if_pos h]
  · rw [if_neg (by tauto), if_neg h]

/-- Characterization of a successful center computation: the returned
coordinate carries exactly the latitude midpoint and the branch-selected
longitude of the source. -/
theorem center_eq_some (r : GeoRect) (c : GeoCoord) (h : r.center = some c) :
    c.lat = (r.top_left.lat + r.bottom_right.lat) / 2 ∧
    c.lon = (if r.crosses_dateline then
        ((180 - r.top_left.lon) + |(-180) - r.bottom_right.lon|) / 2 + r.top_left.lon
      else
        (r.top_left.lon + r.bottom_right.lon) / 2) := by
  rcases hc : r.crosses_dateline with _ | _
  · rw [if_neg (by simp [hc])]
    simp only [GeoRect.center, hc, if_neg, Bool.false_eq_true, if_false] at h
    rw [from_degrees_finite] at h
    split_ifs at h with hv
    · simp only [Except.toOption, Option.some.injEq] at h
      subst h
      exact ⟨rfl, rfl⟩
    · simp [Except.toOption] at h
  · rw [if_pos (by simp [hc])]
    simp only [GeoRect.center, hc, if_pos, if_true] at h
    rw [from_degrees_finite] at h
    split_ifs at h with hv
    · simp only [Except.toOption, Option.some.injEq] at h
      subst h
      exact ⟨rfl, rfl⟩
    · simp [Except.toOption] at h

/-! ### C1 -/

/-- C1 counterexample: the claim says coordinates at opposite poles are
never equal, yet the coordinate (180, 90) at the north pole and the
coordinate (-180, -90) at the south pole, both valid, compare equal,
because the antimeridian branch of PartialEq fires first. -/
theorem c1_opposite_poles_equal_counterexample :
    GeoCoord.valid ⟨180, 90⟩ ∧ GeoCoord.valid ⟨-180, -90⟩ ∧
    (⟨180, 90⟩ : GeoCoord).lat = 90 ∧ (⟨-180, -90⟩ : GeoCoord).lat = -90 ∧
    GeoCoord.eq ⟨180, 90⟩ ⟨-180, -90⟩ = true :=
  ⟨by decide, by decide, rfl, rfl, by decide⟩

/-- C1 (amended): GeoCoord equality is exactly the three-disjunct
predicate; any two coordinates whose longitudes both have absolute value
180 are equal; any two coordinates at the same pole are equal; and
coordinates at opposite poles are never equal unless both longitudes have
absolute value 180, in which case the antimeridian branch makes them
equal. -/
theorem c1_geocoord_eq_three_disjuncts (a b : GeoCoord) :
    (GeoCoord.eq a b = true ↔
      ((a.lon = b.lon ∧ a.lat = b.lat) ∨ (|a.lon| = 180 ∧ |b.lon| = 180) ∨
        (a.lat = b.lat ∧ |a.lat| = 90))) ∧
    (|a.lon| = 180 → |b.lon| = 180 → GeoCoord.eq a b = true) ∧
    (a.lat = b.lat → |a.lat| = 90 → GeoCoord.eq a b = true) ∧
    (|a.lat| = 90 → |b.lat| = 90 → a.lat ≠ b.lat →
      ¬(|a.lon| = 180 ∧ |b.lon| = 180) → GeoCoord.eq a b = false) := by
  unfold GeoCoord.eq
  refine ⟨?_, ?_, ?_, ?_⟩
  · split_ifs with h1 h2 <;> simp <;> tauto
  · intro h1 h2
    rw [if_pos ⟨h1, h2⟩]
  · intro h1 h2
    split_ifs with h3 h4 <;> tauto
  · intro h90a h90b hne hlon
    rw [if_neg hlon, if_neg (fun h => hne h.1)]
    simp only [decide_eq_false_iff_not]
    exact fun h => hne h.2

/-- Witness for C1: instantiating the amended theorem at the north-pole
coordinate (-80, 90) and the south-pole coordinate (80, -90) shows they
compare unequal. -/
theorem c1_geocoord_eq_three_disjuncts_witness :
    GeoCoord.eq ⟨-80, 90⟩ ⟨80, -90⟩ = false :=
  (c1_geocoord_eq_three_disjuncts ⟨-80, 90⟩ ⟨80, -90⟩).2.2.2
    (by decide) (by decide) (by decide) (by decide)

/-! ### C2 -/

/-- C2: the claim that every listed derived operation is total on
validated inputs fails in the code: on the valid dateline-crossing
rectangle with corners (170, 20) and (100, -20), GeoRect::center computes
the out-of-range longitude 315 and unwraps Err(InvalidGeoCoord), i.e. the
source panics (modelled here by none). -/
theorem c2_center_aborts_on_valid_rect :
    GeoCoord.valid ⟨170, 20⟩ ∧ GeoCoord.valid ⟨100, -20⟩ ∧
    GeoRect.valid ⟨⟨170, 20⟩, ⟨100, -20⟩⟩ ∧
    GeoRect.crosses_dateline ⟨⟨170, 20⟩, ⟨100, -20⟩⟩ = true ∧
    GeoRect.center ⟨⟨170, 20⟩, ⟨100, -20⟩⟩ = none := by
  refine ⟨by decide, by decide, by decide, by decide, ?_⟩
  simp only [GeoRect.center, GeoRect.crosses_dateline, from_degrees_finite]
  norm_num [Except.toOption]

/-! ### C3 -/

/-- C3: center returns the latitude midpoint, and for a dateline-crossing
rectangle the longitude obtained by summing the angular distances from
each corner to the antimeridian, halving and adding top_left.lon;
concretely the center of ((-10,20),(10,-20)) is (0,0) and the center of
the crossing ((10,20),(-10,-20)) is (180,0). -/
theorem c3_center_formula (r : GeoRect) (c : GeoCoord) (h : r.center = some c) :
    c.lat = (r.top_left.lat + r.bottom_right.lat) / 2 ∧
    (r.crosses_dateline = true →
      c.lon = ((180 - r.top_left.lon) + |(-180) - r.bottom_right.lon|) / 2 + r.top_left.lon) ∧
    (r.crosses_dateline = false →
      c.lon = (r.top_left.lon + r.bottom_right.lon) / 2) ∧
    GeoRect.center ⟨⟨-10, 20⟩, ⟨10, -20⟩⟩ = some ⟨0, 0⟩ ∧
    GeoRect.center ⟨⟨10, 20⟩, ⟨-10, -20⟩⟩ = some ⟨180, 0⟩ := by
  obtain ⟨hlat, hlon⟩ := center_eq_some r c h
  refine ⟨hlat, ?_, ?_, ?_, ?_⟩
  · intro hc
    rw [hlon, if_pos hc]
  · intro hc
    rw [hlon, if_neg (by simp [hc])]
  · simp only [GeoRect.center, GeoRect.crosses_dateline, from_degrees_finite]
    norm_num [Except.toOption]
  · simp only [GeoRect.center, GeoRect.crosses_dateline, from_degrees_finite]
    norm_num [Except.toOption]

/-- Witness for C3 at the non-crossing rectangle ((-10,20),(10,-20)),
whose center (0,0) indeed carries the latitude midpoint. -/
theorem c3_center_formula_witness :
    (⟨0, 0⟩ : GeoCoord).lat =
      ((⟨⟨-10, 20⟩, ⟨10, -20⟩⟩ : GeoRect).top_left.lat +
        (⟨⟨-10, 20⟩, ⟨10, -20⟩⟩ : GeoRect).bottom_right.lat) / 2 :=
  (c3_center_formula ⟨⟨-10, 20⟩, ⟨10, -20⟩⟩ ⟨0, 0⟩
    (by simp only [GeoRect.center, GeoRect.crosses_dateline, from_degrees_finite]
        norm_num [Except.toOption])).1

/-! ### C4 -/

/-- C4: for every valid TileId at the grid's zoom, the pole-sentinel
branch of tile_bbox is unreachable — since y < 2^z the comparison
y == 2^z is always false, so the bottom latitude is always the inverse
Mercator value applied to 1 - 2*(y+1)/2^z. -/
theorem c4_tile_bbox_sentinel_unreachable (g : TileGrid) (t : TileId)
    (hv : t.valid) (hz : t.z = g.z) :
    g.tile_bbox_bottom t ≠ .sentinel ∧
    g.tile_bbox_bottom t = .invMercator (1 - 2 * ((t.y : ℚ) + 1) / 2 ^ g.z) := by
  have hy : t.y < 2 ^ g.z := hz ▸ hv.2.1
  unfold TileGrid.tile_bbox_bottom
  rw [if_neg (by omega)]
  exact ⟨fun hcon => BottomLat.noConfusion hcon, rfl⟩

/-- Witness for C4 at zoom 1 and tile (0,0,1). -/
theorem c4_tile_bbox_sentinel_unreachable_witness :
    TileGrid.tile_bbox_bottom ⟨1, 256⟩ ⟨0, 0, 1⟩ ≠ .sentinel :=
  (c4_tile_bbox_sentinel_unreachable ⟨1, 256⟩ ⟨0, 0, 1⟩ (by decide) rfl).1

/-! ### C5 -/

/-- C5: a non-crossing rectangle can contain a dateline-crossing one only
if it spans the full longitude range, and when the special case does not
force false the result is exactly corner containment of both corners. -/
theorem c5_contains_rect_crossing (a b : GeoRect)
    (ha : a.crosses_dateline = false) (hb : b.crosses_dateline = true) :
    (a.contains_rect b = true → (a.top_left.lon ≤ -180 ∨ 180 ≤ a.bottom_right.lon)) ∧
    (a.top_left.lon ≤ -180 → 180 ≤ a.bottom_right.lon →
      a.contains_rect b =
        (a.contains_coord b.top_left && a.contains_coord b.bottom_right)) := by
  unfold GeoRect.contains_rect
  rw [if_pos ⟨ha, hb⟩]
  constructor
  · intro h
    by_contra hcon
    push_neg at hcon
    rw [if_pos (Or.inl (by linarith [hcon.1]))] at h
    exact Bool.false_ne_true h
  · intro h1 h2
    rw [if_neg (by push_neg; exact ⟨by linarith, by linarith⟩)]

/-- Witness for C5: the full-span rectangle ((-180,20),(180,-20)) versus
the crossing rectangle ((10,20),(-10,-20)). -/
theorem c5_contains_rect_crossing_witness :
    GeoRect.contains_rect ⟨⟨-180, 20⟩, ⟨180, -20⟩⟩ ⟨⟨10, 20⟩, ⟨-10, -20⟩⟩ =
      (GeoRect.contains_coord ⟨⟨-180, 20⟩, ⟨180, -20⟩⟩ ⟨10, 20⟩ &&
        GeoRect.contains_coord ⟨⟨-180, 20⟩, ⟨180, -20⟩⟩ ⟨-10, -20⟩) :=
  (c5_contains_rect_crossing ⟨⟨-180, 20⟩, ⟨180, -20⟩⟩ ⟨⟨10, 20⟩, ⟨-10, -20⟩⟩
    (by decide) (by decide)).2 (by decide) (by decide)

/-! ### C6 -/

/-- C6: the Y-flip conversion between TileId and TmsTileId is a lossless
involution on valid tiles: both round trips are the identity, and the
conversion maps y to 2^z - 1 - y leaving x and z unchanged. -/
theorem c6_tms_conversion_roundtrip (t : TileId) (s : TmsTileId)
    (ht : t.valid) (hs : s.toTileId.valid) :
    TileId.ofTms (TmsTileId.ofTileId t) = t ∧
    TmsTileId.ofTileId (TileId.ofTms s) = s ∧
    (TmsTileId.ofTileId t).toTileId.x = t.x ∧
    (TmsTileId.ofTileId t).toTileId.y = 2 ^ t.z - 1 - t.y ∧
    (TmsTileId.ofTileId t).toTileId.z = t.z := by
  obtain ⟨x, y, z⟩ := t
  obtain ⟨⟨x2, y2, z2⟩⟩ := s
  obtain ⟨-, hy, -⟩ := ht
  obtain ⟨-, hy2, -⟩ := hs
  simp only [TileId.valid] at hy hy2
  unfold TileId.ofTms TmsTileId.ofTileId TileId.flip_y
  have h1 : 2 ^ z - 1 - (2 ^ z - 1 - y) = y := by omega
  have h2 : 2 ^ z2 - 1 - (2 ^ z2 - 1 - y2) = y2 := by omega
  exact ⟨by rw [h1], by rw [h2], rfl, rfl, rfl⟩

/-- Witness for C6: the round trip at the valid tiles (12,0,5) and
TMS (12,31,5), matching the source's tms_conversion test. -/
theorem c6_tms_conversion_roundtrip_witness :
    TileId.ofTms (TmsTileId.ofTileId ⟨12, 0, 5⟩) = ⟨12, 0, 5⟩ ∧
    TmsTileId.ofTileId (TileId.ofTms ⟨⟨12, 31, 5⟩⟩) = ⟨⟨12, 31, 5⟩⟩ :=
  ⟨(c6_tms_conversion_roundtrip ⟨12, 0, 5⟩ ⟨⟨12, 31, 5⟩⟩ (by decide) (by decide)).1,
   (c6_tms_conversion_roundtrip ⟨12, 0, 5⟩ ⟨⟨12, 31, 5⟩⟩ (by decide) (by decide)).2.1⟩

/-! ### C9 -/

/-- C9: intersects is reflexive on every valid GeoRect, whether or not it
crosses the dateline. -/
theorem c9_intersects_reflexive (r : GeoRect) (h : r.valid) :
    r.intersects r = true := by
  unfold GeoRect.valid at h
  unfold GeoRect.intersects
  rw [if_neg (by push_neg; exact ⟨h, h⟩)]
  split_ifs with hpole
  · rfl
  · unfold GeoRect.contains_lon
    rcases hc : r.crosses_dateline with _ | _
    · unfold GeoRect.crosses_dateline at hc
      simp only [decide_eq_false_iff_not, not_lt] at hc
      simp [hc]
    · simp

/-- Witness for C9 at the crossing rectangle ((10,20),(-10,-20)). -/
theorem c9_intersects_reflexive_witness :
    GeoRect.intersects ⟨⟨10, 20⟩, ⟨-10, -20⟩⟩ ⟨⟨10, 20⟩, ⟨-10, -20⟩⟩ = true :=
  c9_intersects_reflexive ⟨⟨10, 20⟩, ⟨-10, -20⟩⟩ (by decide)

/-! ### C10 -/

/-- C10: at the antimeridian the projection breaks the TileId invariant:
for any zoom z < 32 and any valid coordinate with lon = 180, the x tile
index computed by tile_id is exactly 2^z, not less than 2^z.  (The source
builds the TileId by struct literal, bypassing TileId::new.) -/
theorem c10_tile_id_breaks_invariant_at_antimeridian (g : TileGrid) (lat : ℚ)
    (hz : g.z < 32) (hc : GeoCoord.valid ⟨180, lat⟩) :
    g.tile_id_x 180 = 2 ^ g.z ∧ ¬(g.tile_id_x 180 < 2 ^ g.z) := by
  have h1 : ((180 : ℚ) + 180) / 360 * 2 ^ g.z = ((2 ^ g.z : ℤ) : ℚ) := by
    push_cast
    ring
  unfold TileGrid.tile_id_x
  rw [h1, Int.floor_intCast]
  exact ⟨rfl, lt_irrefl _⟩

/-- Witness for C10 at zoom 1 and latitude 0. -/
theorem c10_tile_id_breaks_invariant_at_antimeridian_witness :
    TileGrid.tile_id_x ⟨1, 256⟩ 180 = 2 ^ (1 : ℕ) :=
  (c10_tile_id_breaks_invariant_at_antimeridian ⟨1, 256⟩ 0 (by norm_num) (by decide)).1

/-! ### C7: Morton interleave injectivity -/

/-- Bits of an OR-accumulating fold: a bit of the result is set iff it is
set in the accumulator or in one of the contributions. -/
theorem testBit_foldl_or (f : ℕ → ℕ) (l : List ℕ) (a k : ℕ) :
    (l.foldl (fun m i => m ||| f i) a).testBit k =
      (a.testBit k || l.any fun i => (f i).testBit k) := by
  induction l generalizing a with
  | nil => simp
  | cons i l ih =>
    simp only [List.foldl_cons, List.any_cons, ih, Nat.testBit_or, Bool.or_assoc]

/-- Bits of one loop iteration of interleave: the contribution of
iteration i sets exactly bit 2i to lon bit i and bit 2i+1 to lat bit i. -/
theorem interleave_step_testBit (x y i k : ℕ) :
    (((x &&& 1 <<< i) <<< i) ||| ((y &&& 1 <<< i) <<< (i + 1))).testBit k =
      ((decide (k = 2 * i) && x.testBit i) ||
        (decide (k = 2 * i + 1) && y.testBit i)) := by
  have hone : ∀ m : ℕ, (1 <<< i).testBit m = decide (i = m) := by
    intro m
    rw [Nat.one_shiftLeft, Nat.testBit_two_pow]
  rw [Nat.testBit_or, Nat.testBit_shiftLeft, Nat.testBit_shiftLeft,
    Nat.testBit_and, Nat.testBit_and, hone, hone]
  by_cases h1 : k = 2 * i
  · subst h1
    have e1 : 2 * i - i = i := by omega
    have e2 : i ≤ 2 * i := by omega
    by_cases h2 : i = 0
    · subst h2
      simp
    · rw [e1]
      simp only [ge_iff_le, e2, decide_eq_true_eq]
      have : ¬(i + 1 ≤ 2 * i ∧ i = 2 * i - (i + 1)) := by omega
      by_cases h3 : i + 1 ≤ 2 * i
      · have : i = 2 * i - (i + 1) → False := by omega
        simp [h3, decide_eq_false this]
      · simp [h3]
  · by_cases h2 : k = 2 * i + 1
    · subst h2
      have e1 : 2 * i + 1 - (i + 1) = i := by omega
      have e2 : i + 1 ≤ 2 * i + 1 := by omega
      have e3 : ¬(i = 2 * i + 1 - i) := by omega
      have e4 : i ≤ 2 * i + 1 := by omega
      rw [e1]
      simp [e2, e4, decide_eq_false e3, h1]
    · have e1 : i ≤ k → ¬(i = k - i) := by omega
      have e2 : i + 1 ≤ k → ¬(i = k - (i + 1)) := by omega
      by_cases h3 : i ≤ k <;> by_cases h4 : i + 1 ≤ k <;>
        simp [h1, h2, h3, h4, decide_eq_false (e1 _), decide_eq_false (e2 _)]

/-- Even bits of the interleave: bit 2i of the result is lon bit i,
for i < 32. -/
theorem interleave_testBit_even (x y i : ℕ) (h : i < 32) :
    (interleave x y).testBit (2 * i) = x.testBit i := by
  unfold interleave
  rw [testBit_foldl_or]
  simp only [Nat.zero_testBit, Bool.false_or]
  rcases hx : x.testBit i with _ | _
  · rw [List.any_eq_false]
    intro j hj
    rw [interleave_step_testBit]
    simp only [Bool.or_eq_true, Bool.and_eq_true, decide_eq_true_eq, not_or, not_and]
    constructor
    · intro he
      have : j = i := by omega
      subst this
      simp [hx]
    · intro he
      omega
  · rw [List.any_eq_true]
    refine ⟨i, List.mem_range.mpr h, ?_⟩
    rw [interleave_step_testBit]
    simp [hx]

/-- Odd bits of the interleave: bit 2i+1 of the result is lat bit i,
for i < 32. -/
theorem interleave_testBit_odd (x y i : ℕ) (h : i < 32) :
    (interleave x y).testBit (2 * i + 1) = y.testBit i := by
  unfold interleave
  rw [testBit_foldl_or]
  simp only [Nat.zero_testBit, Bool.false_or]
  rcases hy : y.testBit i with _ | _
  · rw [List.any_eq_false]
    intro j hj
    rw [interleave_step_testBit]
    simp only [Bool.or_eq_true, Bool.and_eq_true, decide_eq_true_eq, not_or, not_and]
    constructor
    · intro he
      omega
    · intro he
      have : j = i := by omega
      subst this
      simp [hy]
  · rw [List.any_eq_true]
    refine ⟨i, List.mem_range.mpr h, ?_⟩
    rw [interleave_step_testBit]
    simp [hy]

/-- The interleave is injective on 32-bit patterns. -/
theorem interleave_injective (x y u v : ℕ) (hx : x < 2 ^ 32) (hy : y < 2 ^ 32)
    (hu : u < 2 ^ 32) (hv : v < 2 ^ 32) (h : interleave x y = interleave u v) :
    x = u ∧ y = v := by
  constructor
  · apply Nat.eq_of_testBit_eq
    intro i
    by_cases hi : i < 32
    · rw [← interleave_testBit_even x y i hi, ← interleave_testBit_even u v i hi, h]
    · have h32 : (2 : ℕ) ^ 32 ≤ 2 ^ i := Nat.pow_le_pow_right (by omega) (by omega)
      rw [Nat.testBit_lt_two_pow (by omega), Nat.testBit_lt_two_pow (by omega)]
  · apply Nat.eq_of_testBit_eq
    intro i
    by_cases hi : i < 32
    · rw [← interleave_testBit_odd x y i hi, ← interleave_testBit_odd u v i hi, h]
    · have h32 : (2 : ℕ) ^ 32 ≤ 2 ^ i := Nat.pow_le_pow_right (by omega) (by omega)
      rw [Nat.testBit_lt_two_pow (by omega), Nat.testBit_lt_two_pow (by omega)]

/-- bits32 stays below 2^32 and is injective on the i32 range. -/
theorem bits32_lt (n : ℤ) : bits32 n < 2 ^ 32 := by
  unfold bits32
  omega

/-- Two i32 values with the same 32-bit two's-complement pattern are
equal. -/
theorem bits32_injective (m n : ℤ) (hm1 : -(2 ^ 31) ≤ m) (hm2 : m < 2 ^ 31)
    (hn1 : -(2 ^ 31) ≤ n) (hn2 : n < 2 ^ 31) (h : bits32 m = bits32 n) : m = n := by
  unfold bits32 at h
  omega

/-! ### C7 -/

/-- C7: CompactGeoCoord::morton_code is injective: two compact
coordinates (within the i32 range) with the same Morton code are equal,
since the interleave places lon bit i at position 2i and lat bit i at
position 2i+1. -/
theorem c7_morton_code_injective (a b : CompactGeoCoord)
    (ha : a.valid) (hb : b.valid) (h : a.morton_code = b.morton_code) : a = b := by
  obtain ⟨halon1, halon2, halat1, halat2⟩ := ha
  obtain ⟨hblon1, hblon2, hblat1, hblat2⟩ := hb
  unfold CompactGeoCoord.morton_code at h
  obtain ⟨h1, h2⟩ := interleave_injective _ _ _ _
    (bits32_lt a.lon) (bits32_lt a.lat) (bits32_lt b.lon) (bits32_lt b.lat) h
  obtain ⟨alon, alat⟩ := a
  obtain ⟨blon, blat⟩ := b
  simp only [CompactGeoCoord.mk.injEq]
  exact ⟨bits32_injective _ _ halon1 halon2 hblon1 hblon2 h1,
    bits32_injective _ _ halat1 halat2 hblat1 hblat2 h2⟩

/-- Witness for C7 at the compact coordinate (27374451, 582901293)
produced by the source's encoding test. -/
theorem c7_morton_code_injective_witness :
    (⟨27374451, 582901293⟩ : CompactGeoCoord) = ⟨27374451, 582901293⟩ :=
  c7_morton_code_injective ⟨27374451, 582901293⟩ ⟨27374451, 582901293⟩
    (by decide) (by decide) rfl

/-! ### C8 -/

/-- C8: from_degrees succeeds exactly on finite inputs with lon in
[-180, 180] and lat in [-90, 90]; every other input — out-of-range
finite values, NaN (for which every comparison is false) and the
infinities — yields Err(InvalidGeoCoord). -/
theorem c8_from_degrees_ok_iff (lon lat : F64) :
    ((∃ c, GeoCoord.from_degrees lon lat = .ok c) ↔
      (∃ a b, lon = .finite a ∧ lat = .finite b ∧
        -180 ≤ a ∧ a ≤ 180 ∧ -90 ≤ b ∧ b ≤ 90)) ∧
    ((∃ c, GeoCoord.from_degrees lon lat = .ok c) ∨
      GeoCoord.from_degrees lon lat = .error ⟨⟩) ∧
    GeoCoord.from_degrees .nan lat = .error ⟨⟩ ∧
    GeoCoord.from_degrees lon .nan = .error ⟨⟩ ∧
    GeoCoord.from_degrees .inf lat = .error ⟨⟩ ∧
    GeoCoord.from_degrees lon .inf = .error ⟨⟩ ∧
    GeoCoord.from_degrees .negInf lat = .error ⟨⟩ ∧
    GeoCoord.from_degrees lon .negInf = .error ⟨⟩ := by
  refine ⟨?_, ?_, ?_, ?_, ?_, ?_, ?_, ?_⟩
  · constructor
    · intro ⟨c, hc⟩
      cases lon with
      | finite a =>
        cases lat with
        | finite b =>
          rw [from_degrees_finite] at hc
          split_ifs at hc with hr
          · exact ⟨a, b, rfl, rfl, hr.1, hr.2.1, hr.2.2.1, hr.2.2.2⟩
        | nan => simp [GeoCoord.from_degrees, F64.le] at hc
        | inf => simp [GeoCoord.from_degrees, F64.le] at hc
        | negInf => simp [GeoCoord.from_degrees, F64.le] at hc
      | nan => simp [GeoCoord.from_degrees, F64.le] at hc
      | inf => simp [GeoCoord.from_degrees, F64.le] at hc
      | negInf =>
        cases lat <;> simp [GeoCoord.from_degrees, F64.le] at hc
    · intro ⟨a, b, hla, hlb, h1, h2, h3, h4⟩
      subst hla
      subst hlb
      rw [from_degrees_finite, if_pos ⟨h1, h2, h3, h4⟩]
      exact ⟨⟨a, b⟩, rfl⟩
  · unfold GeoCoord.from_degrees
    split_ifs
    · exact Or.inl ⟨_, rfl⟩
    · exact Or.inr rfl
  · simp [GeoCoord.from_degrees, F64.le]
  · cases lon <;> simp [GeoCoord.from_degrees, F64.le]
  · simp [GeoCoord.from_degrees, F64.le]
  · cases lon <;> simp [GeoCoord.from_degrees, F64.le]
  · cases lat <;> simp [GeoCoord.from_degrees, F64.le]
  · cases lon <;> simp [GeoCoord.from_degrees, F64.le]

/-- Witness for C8: the in-range input (2, 48) is accepted. -/
theorem c8_from_degrees_ok_iff_witness :
    ∃ c, GeoCoord.from_degrees (.finite 2) (.finite 48) = .ok c :=
  (c8_from_degrees_ok_iff (.finite 2) (.finite 48)).1.mpr
    ⟨2, 48, rfl, rfl, by norm_num, by norm_num, by norm_num, by norm_num⟩
